import Mathlib

set_option maxRecDepth 100000

/-!
Verification of the text-to-index encoding pipeline and the scoring-service
contract of the cloud-native text-analytics platform.

The scoring service (notebook "04 Deploy Classifier Web Service", cell
defining `scoring_service.py`) consists of:
  - `remove_special_characters`: strips every ASCII punctuation character
    (Python `string.punctuation`) from a token;
  - `convert_to_indices`: per claim text, splits on whitespace, lowercases
    each token, expands contractions via the contraction map, and resolves
    words to vocabulary indices (`list.index`), falling back to the
    unknown-word sentinel 399999 on `ValueError`;
  - `run`: parses the request payload, encodes it, pads each index sequence
    to length 125 with Keras `pad_sequences(maxlen=125, padding='pre',
    truncating='post')`, reshapes to a single `(1, 125)` row, invokes the
    ONNX session, and returns `argmax`; any exception is caught and returned
    as its string form.

The training notebook ("03 Claim Classification") contains a second,
textually identical copy of the encoder (parameter named `dictionary`
instead of `dictonary`); it is embedded separately in namespace `Training`.

Machine floats only carry vocabulary indices (small naturals, exactly
representable in float32) into the engine, so rows are modelled as `List
Nat`; engine scores are modelled over `ℚ`, an exact stand-in for the
ordered float score values, since only comparisons reach `argmax`.
Exceptions are modelled with `Except String`.
-/

/-- Python `str.split()` with no argument: split on runs of whitespace and
drop empty fragments.  Structurally recursive worker over the character
list; `cur` holds the characters of the current word in reverse. -/
def splitWsAux (cur : List Char) : List Char → List (List Char)
  | [] => if cur = [] then [] else [cur.reverse]
  | c :: cs =>
    if c.isWhitespace then
      if cur = [] then splitWsAux [] cs else cur.reverse :: splitWsAux [] cs
    else splitWsAux (c :: cur) cs

/-- Tokenisation used by `corpus[i].split()` and `c_map[word].split()`. -/
def splitWs (s : String) : List String :=
  (splitWsAux [] s.data).map (fun cs => ⟨cs⟩)

/-- Membership of a character in Python `string.punctuation`, i.e. the ASCII
ranges 33–47, 58–64, 91–96 and 123–126. -/
def isPunctChar (c : Char) : Bool :=
  (33 ≤ c.toNat && c.toNat ≤ 47) || (58 ≤ c.toNat && c.toNat ≤ 64) ||
  (91 ≤ c.toNat && c.toNat ≤ 96) || (123 ≤ c.toNat && c.toNat ≤ 126)

/-- Python `str.lower()` restricted to its ASCII action (the service's
vocabulary and contraction data are ASCII): each character is lowercased
independently. -/
def lowerStr (s : String) : String := ⟨s.data.map Char.toLower⟩

/-- `remove_special_characters` of `scoring_service.py`:
`re.compile('[{}]'.format(re.escape(string.punctuation))).sub('', token)`,
that is, delete every ASCII punctuation character. -/
def remove_special_characters (token : String) : String :=
  ⟨token.data.filter (fun c => !(isPunctChar c))⟩

/-- The contraction map: Python `dict` built from the contractions table,
with `word in c_map` / `c_map[word]` access.  Modelled as first-match
association-list lookup. -/
def lookupMap (m : List (String × String)) (k : String) : Option String :=
  match m with
  | [] => none
  | p :: rest => if p.1 = k then some p.2 else lookupMap rest k

/-- The body of the per-token loop of `convert_to_indices`
(`scoring_service.py`): lowercase the token; if it is a contraction-map key,
resolve each word of the expansion phrase against the vocabulary (sentinel
on `ValueError`); otherwise strip punctuation and, when something remains,
resolve the cleaned token (sentinel on `ValueError`); a token that cleans to
the empty string contributes nothing. -/
def encodeWord (dictonary : List String) (c_map : List (String × String))
    (unk_word_index : Nat) (word : String) : List Nat :=
  let w := lowerStr word
  match lookupMap c_map w with
  | some phrase =>
    (splitWs phrase).map (fun resolved_word =>
      match dictonary.findIdx? (fun x => x == resolved_word) with
      | some word_index => word_index
      | none => unk_word_index)
  | none =>
    let clean_word := remove_special_characters w
    if clean_word.length > 0 then
      match dictonary.findIdx? (fun x => x == clean_word) with
      | some word_index => [word_index]
      | none => [unk_word_index]
    else []

/-- The index sequence of one claim text's token list: tokens processed
strictly left to right, each contributing its `encodeWord` indices. -/
def encodeTokens (dictonary : List String) (c_map : List (String × String))
    (unk_word_index : Nat) (tokens : List String) : List Nat :=
  tokens.flatMap (encodeWord dictonary c_map unk_word_index)

/-- `convert_to_indices(corpus, dictonary, c_map, unk_word_index=399999)` of
`scoring_service.py`: one index sequence per corpus entry. -/
def convert_to_indices (corpus : List String) (dictonary : List String)
    (c_map : List (String × String)) (unk_word_index : Nat) : List (List Nat) :=
  corpus.map (fun text => encodeTokens dictonary c_map unk_word_index (splitWs text))

/-- One row of Keras `pad_sequences(..., maxlen, padding='pre',
truncating='post', value=0)`: truncate to the first `maxlen` entries, then
write them into the tail of an all-zero row of width `maxlen`. -/
def padRow (maxlen : Nat) (s : List Nat) : List Nat :=
  let trunc := s.take maxlen
  List.replicate (maxlen - trunc.length) 0 ++ trunc

/-- Keras `pad_sequences` as called by `run`: every sequence padded/truncated
to width `maxlen`. -/
def pad_sequences (sequences : List (List Nat)) (maxlen : Nat) : List (List Nat) :=
  sequences.map (padRow maxlen)

/-- `np.reshape(padded, (1, maxSeqLength))`: succeeds exactly when the total
number of entries is `maxlen`, yielding that single row; otherwise numpy
raises `ValueError: cannot reshape array`. -/
def reshape1 (rows : List (List Nat)) (maxlen : Nat) : Except String (List Nat) :=
  if rows.flatten.length = maxlen then .ok rows.flatten
  else .error "cannot reshape array into shape (1,125)"

/-- Worker for `np.argmax` over the score row: first occurrence of the
maximum wins (a later entry replaces the current best only when strictly
greater). -/
def argmaxGo (best : ℚ) (bi : Nat) (i : Nat) : List ℚ → Nat
  | [] => bi
  | x :: xs => if best < x then argmaxGo x i (i + 1) xs else argmaxGo best bi (i + 1) xs

/-- `scores.argmax(axis=1).item()` on the engine's score row: numpy raises on
an empty axis, otherwise returns the index of the first maximal score. -/
def argmaxItem (scores : List ℚ) : Except String Nat :=
  match scores with
  | [] => .error "attempt to get argmax of an empty sequence"
  | x :: xs => .ok (argmaxGo x 0 1 xs)

/-- Result of one `run` call: either the integer classification label or the
stringified exception text. -/
inductive RunResult where
  | label : Nat → RunResult
  | error : String → RunResult
  deriving DecidableEq

/-- `run(raw_data)` of `scoring_service.py`.  `raw_data` is the outcome of
`json.loads` (an exception there is caught like every other); `onnx_session`
is the inference engine, mapping the single reshaped row to its score row
(or failing).  The whole body sits in `try/except Exception`, whose handler
returns `str(e)`. -/
def run (raw_data : Except String (List String)) (dictonary : List String)
    (contractions : List (String × String))
    (onnx_session : List Nat → Except String (List ℚ)) : RunResult :=
  match (do
    let input_data_raw ← raw_data
    let input_data_indices := convert_to_indices input_data_raw dictonary contractions 399999
    let input_data_padded := pad_sequences input_data_indices 125
    let input_data ← reshape1 input_data_padded 125
    let scores ← onnx_session input_data
    argmaxItem scores : Except String Nat) with
  | .ok result => .label result
  | .error e => .error e

namespace Training

/-- `remove_special_characters` of notebook 03 (textually identical to the
serving copy). -/
def remove_special_characters (token : String) : String :=
  ⟨token.data.filter (fun c => !(isPunctChar c))⟩

/-- Per-token body of notebook 03's `convert_to_indices` (same code as the
serving copy, parameter spelled `dictionary`). -/
def encodeWord (dictionary : List String) (c_map : List (String × String))
    (unk_word_index : Nat) (word : String) : List Nat :=
  let w := lowerStr word
  match lookupMap c_map w with
  | some phrase =>
    (splitWs phrase).map (fun resolved_word =>
      match dictionary.findIdx? (fun x => x == resolved_word) with
      | some word_index => word_index
      | none => unk_word_index)
  | none =>
    let clean_word := Training.remove_special_characters w
    if clean_word.length > 0 then
      match dictionary.findIdx? (fun x => x == clean_word) with
      | some word_index => [word_index]
      | none => [unk_word_index]
    else []

/-- `convert_to_indices(corpus, dictionary, c_map, unk_word_index=399999)` of
notebook 03. -/
def convert_to_indices (corpus : List String) (dictionary : List String)
    (c_map : List (String × String)) (unk_word_index : Nat) : List (List Nat) :=
  corpus.map (fun text =>
    (splitWs text).flatMap (Training.encodeWord dictionary c_map unk_word_index))

end Training

/-! ## Helper lemmas -/

/-- Every padded row has width exactly `maxlen`. -/
theorem padRow_length (maxlen : Nat) (s : List Nat) : (padRow maxlen s).length = maxlen := by
  simp only [padRow, List.length_append, List.length_replicate, List.length_take]
  omega

/-- A successful `list.index` result is a position inside the list. -/
theorem findIdx?_lt_length {α : Type} {l : List α} {p : α → Bool} {i : Nat}
    (h : List.findIdx? p l = some i) : i < l.length :=
  (List.findIdx?_eq_some_iff_findIdx_eq.1 h).1

/-- Reshaping a single full-width row to `(1, 125)` succeeds and returns the
row itself. -/
theorem reshape1_singleton (row : List Nat) (h : row.length = 125) :
    reshape1 [row] 125 = .ok row := by
  simp [reshape1, h]

/-- A `run` call on a successfully parsed singleton batch reduces to padding
the first claim's index sequence, scoring it, and taking the argmax. -/
theorem run_singleton (dictonary : List String) (contractions : List (String × String))
    (onnx_session : List Nat → Except String (List ℚ)) (t : String) :
    run (.ok [t]) dictonary contractions onnx_session =
      match onnx_session (padRow 125 (encodeTokens dictonary contractions 399999 (splitWs t))) with
      | .ok scores =>
        match argmaxItem scores with
        | .ok n => .label n
        | .error e => .error e
      | .error e => .error e := by
  have h1 : reshape1 (pad_sequences (convert_to_indices [t] dictonary contractions 399999) 125) 125
      = .ok (padRow 125 (encodeTokens dictonary contractions 399999 (splitWs t))) := by
    simp only [convert_to_indices, List.map_cons, List.map_nil, pad_sequences]
    exact reshape1_singleton _ (padRow_length 125 _)
  simp only [run, bind, Except.bind, h1]
  cases onnx_session (padRow 125 (encodeTokens dictonary contractions 399999 (splitWs t))) with
  | ok scores => cases argmaxItem scores <;> rfl
  | error e => rfl

/-- Padding preserves the number of rows and fixes each width at 125, so the
flattened array of an `n`-claim batch has `125 * n` entries. -/
theorem flatten_pad_length (texts dictonary : List String)
    (c_map : List (String × String)) :
    (pad_sequences (convert_to_indices texts dictonary c_map 399999) 125).flatten.length
      = 125 * texts.length := by
  simp only [pad_sequences, convert_to_indices, List.length_flatten, List.map_map]
  have : (List.length ∘ padRow 125 ∘ fun text =>
      encodeTokens dictonary c_map 399999 (splitWs text)) = Function.const String 125 := by
    funext text
    exact padRow_length 125 _
  rw [this, List.map_const, List.sum_replicate, smul_eq_mul, Nat.mul_comm]

/-- When the parsed batch does not have exactly one element, the reshape to
`(1, 125)` fails and `run` returns the caught numpy error text. -/
theorem run_reshape_error (dictonary : List String) (c_map : List (String × String))
    (onnx_session : List Nat → Except String (List ℚ)) (texts : List String)
    (h : texts.length ≠ 1) :
    run (.ok texts) dictonary c_map onnx_session =
      .error "cannot reshape array into shape (1,125)" := by
  have h2 : reshape1 (pad_sequences (convert_to_indices texts dictonary c_map 399999) 125) 125
      = .error "cannot reshape array into shape (1,125)" := by
    rw [reshape1, if_neg]
    rw [flatten_pad_length]
    omega
  simp only [run, bind, Except.bind, h2]

/-- Any `RunResult` is a label or an error string. -/
theorem runResult_cases (r : RunResult) :
    (∃ n, r = .label n) ∨ (∃ s, r = .error s) := by
  cases r with
  | label n => exact .inl ⟨n, rfl⟩
  | error s => exact .inr ⟨s, rfl⟩

/-- ASCII punctuation is untouched by lowercasing. -/
theorem toLower_punct (c : Char) (h : isPunctChar c = true) : c.toLower = c := by
  simp only [isPunctChar, Bool.or_eq_true, Bool.and_eq_true, decide_eq_true_eq] at h
  unfold Char.toLower
  rw [if_neg]
  omega

/-- A token made of punctuation only cleans (after lowercasing) to the empty
string. -/
theorem remove_special_all_punct (w : String)
    (h : ∀ c ∈ w.data, isPunctChar c = true) :
    remove_special_characters (lowerStr w) = "" := by
  apply String.ext
  show ((lowerStr w).data.filter (fun c => !(isPunctChar c))) = ("" : String).data
  have hdata : (lowerStr w).data = w.data.map Char.toLower := rfl
  rw [hdata]
  rw [show w.data.map Char.toLower = w.data from
    (List.map_congr_left (fun c hc => toLower_punct c (h c hc))).trans w.data.map_id]
  apply List.filter_eq_nil_iff.2
  intro c hc
  simp [h c hc]

/-- A punctuation-only token that is not a contraction key contributes no
index at all. -/
theorem encodeWord_punct (dictonary : List String) (c_map : List (String × String))
    (u : Nat) (w : String)
    (hp : ∀ c ∈ w.data, isPunctChar c = true)
    (hc : lookupMap c_map (lowerStr w) = none) :
    encodeWord dictonary c_map u w = [] := by
  simp only [encodeWord, hc, remove_special_all_punct w hp]
  rfl

/-- The contraction branch of `encodeWord`: the expansion phrase is split and
each word resolved independently, unknown words going to the sentinel. -/
theorem encodeWord_contraction (dictonary : List String)
    (c_map : List (String × String)) (u : Nat) (word phrase : String)
    (h : lookupMap c_map (lowerStr word) = some phrase) :
    encodeWord dictonary c_map u word =
      (splitWs phrase).map (fun resolved_word =>
        (dictonary.findIdx? (fun x => x == resolved_word)).getD u) := by
  simp only [encodeWord, h]
  apply List.map_congr_left
  intro a _
  cases List.findIdx? (fun x => x == a) dictonary <;> rfl

/-- Every index produced for one token is a vocabulary position or the
sentinel. -/
theorem mem_encodeWord (dictonary : List String) (c_map : List (String × String))
    (u : Nat) (w : String) (i : Nat) (h : i ∈ encodeWord dictonary c_map u w) :
    i < dictonary.length ∨ i = u := by
  simp only [encodeWord] at h
  cases hm : lookupMap c_map (lowerStr w) with
  | some phrase =>
    rw [hm] at h
    rw [List.mem_map] at h
    obtain ⟨a, -, ha⟩ := h
    cases hfi : List.findIdx? (fun x => x == a) dictonary with
    | some k =>
      rw [hfi] at ha
      exact .inl (ha ▸ findIdx?_lt_length hfi)
    | none =>
      rw [hfi] at ha
      exact .inr ha.symm
  | none =>
    rw [hm] at h
    by_cases hl : (remove_special_characters (lowerStr w)).length > 0
    · rw [if_pos hl] at h
      cases hfi : List.findIdx? (fun x => x == remove_special_characters (lowerStr w)) dictonary with
      | some k =>
        rw [hfi] at h
        rw [List.mem_singleton] at h
        exact .inl (h ▸ findIdx?_lt_length hfi)
      | none =>
        rw [hfi] at h
        rw [List.mem_singleton] at h
        exact .inr h
    · rw [if_neg hl] at h
      exact absurd h (List.not_mem_nil i)

/-! ## Claim theorems -/

/-- C2 (counterexample). The claim as stated fails: the token `"..."` is not
present in the vocabulary `["cat"]` under any transformation (it is no
contraction key, and neither it nor its punctuation-stripped form — the
empty string — occurs in the vocabulary), yet the encoder returns `[]`, not
`[399999]`: a punctuation-only token is dropped before any lookup. -/
theorem C2_counterexample :
    lookupMap ([] : List (String × String)) (lowerStr "...") = none ∧
    List.findIdx? (fun x => x == lowerStr "...") ["cat"] = none ∧
    List.findIdx? (fun x => x == remove_special_characters (lowerStr "...")) ["cat"] = none ∧
    convert_to_indices ["..."] ["cat"] [] 399999 = [[]] ∧
    convert_to_indices ["..."] ["cat"] [] 399999 ≠ [[399999]] := by
  decide

/-- C2 (amended). For every single-token input that is not a contraction-map
key and whose lowercased, punctuation-stripped form is nonempty but absent
from the vocabulary, the encoder returns exactly `[399999]` (the lookup
failure is absorbed into the sentinel, never surfaced as an exception);
a token whose stripped form is empty instead contributes nothing. -/
theorem C2_unknown_token_sentinel (dictonary : List String)
    (c_map : List (String × String)) (t : String)
    (h0 : splitWs t = [t])
    (h1 : lookupMap c_map (lowerStr t) = none)
    (h2 : remove_special_characters (lowerStr t) ≠ "")
    (h3 : List.findIdx? (fun x => x == remove_special_characters (lowerStr t)) dictonary = none) :
    convert_to_indices [t] dictonary c_map 399999 = [[399999]] := by
  have hpos : (remove_special_characters (lowerStr t)).length > 0 := by
    rcases Nat.eq_zero_or_pos (remove_special_characters (lowerStr t)).length with hz | hp
    · exfalso
      apply h2
      apply String.ext
      exact List.length_eq_zero.1 hz
    · exact hp
  simp only [convert_to_indices, List.map_cons, List.map_nil, encodeTokens, h0,
    List.flatMap_cons, List.flatMap_nil, List.append_nil]
  simp only [encodeWord, h1, h3, if_pos hpos]

/-- C2 witness: a concrete unknown word resolves to the sentinel. -/
theorem C2_witness : convert_to_indices ["qzx"] ["cat"] [] 399999 = [[399999]] :=
  C2_unknown_token_sentinel ["cat"] [] "qzx" (by decide) (by decide) (by decide) (by decide)

/-- C3. The fixed-width formatter always emits a row of exactly 125 entries:
an index sequence shorter than 125 is left-padded with zeros, one of length
at least 125 is cut to its first 125 values, order untouched. -/
theorem C3_fixed_width_formatter (s : List Nat) :
    (padRow 125 s).length = 125 ∧
    padRow 125 s =
      (if s.length < 125 then List.replicate (125 - s.length) 0 ++ s else s.take 125) := by
  refine ⟨padRow_length 125 s, ?_⟩
  by_cases h : s.length < 125
  · rw [if_pos h]
    simp only [padRow]
    rw [List.take_of_length_le (Nat.le_of_lt h)]
  · rw [if_neg h]
    simp only [padRow]
    have htake : (s.take 125).length = 125 := by
      rw [List.length_take]
      omega
    rw [htake]
    simp

/-- C4. A token whose lowercased form is a contraction-map key is replaced by
its expansion phrase, each expansion word resolved independently against the
vocabulary by exact match (unknown expansion words becoming the sentinel);
in particular, with `"can't" → "cannot"` in the map and `"cannot"` first
found at position `K` of the vocabulary, encoding `"Can't"` yields `[K]`. -/
theorem C4_contraction_expansion (dictonary : List String)
    (c_map : List (String × String)) (K : Nat)
    (h1 : lookupMap c_map "can't" = some "cannot")
    (h2 : List.findIdx? (fun x => x == "cannot") dictonary = some K) :
    convert_to_indices ["Can't"] dictonary c_map 399999 = [[K]] ∧
    ∀ word phrase, lookupMap c_map (lowerStr word) = some phrase →
      encodeWord dictonary c_map 399999 word =
        (splitWs phrase).map (fun resolved_word =>
          (List.findIdx? (fun x => x == resolved_word) dictonary).getD 399999) := by
  constructor
  · have hl : lowerStr "Can't" = "can't" := by decide
    have hsplit : splitWs "Can't" = ["Can't"] := by decide
    have hphrase : splitWs "cannot" = ["cannot"] := by decide
    have he := encodeWord_contraction dictonary c_map 399999 "Can't" "cannot" (by rw [hl]; exact h1)
    simp only [convert_to_indices, List.map_cons, List.map_nil, encodeTokens, hsplit,
      List.flatMap_cons, List.flatMap_nil, List.append_nil, he, hphrase, h2]
    rfl
  · exact fun word phrase h => encodeWord_contraction dictonary c_map 399999 word phrase h

/-- C4 witness: the `"Can't"` scenario at a concrete vocabulary and map. -/
theorem C4_witness :
    convert_to_indices ["Can't"] ["word", "cannot"] [("can't", "cannot")] 399999 = [[1]] :=
  (C4_contraction_expansion ["word", "cannot"] [("can't", "cannot")] 1 (by decide) (by decide)).1

/-- C6. A token made only of ASCII punctuation (and not a contraction-map
key, which a pure-punctuation word never is in the loaded data) contributes
zero entries to the index sequence: no vocabulary index, no sentinel, and
removing it from the token list leaves the encoded sequence unchanged. -/
theorem C6_punctuation_only_token (dictonary : List String)
    (c_map : List (String × String)) (w : String) (pre post : List String)
    (hp : ∀ c ∈ w.data, isPunctChar c = true)
    (hc : lookupMap c_map (lowerStr w) = none) :
    encodeWord dictonary c_map 399999 w = [] ∧
    encodeTokens dictonary c_map 399999 (pre ++ w :: post) =
      encodeTokens dictonary c_map 399999 (pre ++ post) := by
  have he := encodeWord_punct dictonary c_map 399999 w hp hc
  refine ⟨he, ?_⟩
  simp only [encodeTokens, List.flatMap_append, List.flatMap_cons, he, List.nil_append]

/-- C6 witness: `"..."` vanishes from a concrete token sequence. -/
theorem C6_witness :
    encodeWord ["cat"] [] 399999 "..." = [] ∧
    encodeTokens ["cat"] [] 399999 (["cat"] ++ "..." :: ["dog"]) =
      encodeTokens ["cat"] [] 399999 (["cat"] ++ ["dog"]) :=
  C6_punctuation_only_token ["cat"] [] "..." ["cat"] ["dog"] (by decide) (by decide)

/-- C7. Every integer in every index sequence the encoder produces is either
a genuine vocabulary position (hence `< |Vocabulary|`) or the fixed sentinel
399999 — the sentinel being the constant the service passes, independent of
the vocabulary's length. -/
theorem C7_index_range (corpus dictonary : List String)
    (c_map : List (String × String)) (seq : List Nat)
    (hs : seq ∈ convert_to_indices corpus dictonary c_map 399999)
    (i : Nat) (hi : i ∈ seq) :
    i < dictonary.length ∨ i = 399999 := by
  simp only [convert_to_indices, List.mem_map] at hs
  obtain ⟨text, -, rfl⟩ := hs
  simp only [encodeTokens, List.mem_flatMap] at hi
  obtain ⟨tok, -, hw⟩ := hi
  exact mem_encodeWord dictonary c_map 399999 tok i hw

/-- C7 witness: the known word of `"cat zzz"` lands inside the vocabulary. -/
theorem C7_witness : 0 < (["cat"] : List String).length ∨ 0 = 399999 :=
  C7_index_range ["cat zzz"] ["cat"] [] [0, 399999] (by decide) 0 (by decide)

/-- C10. The training-time encoder of notebook 03 and the serving-time
encoder deployed by notebook 04 compute the same function: on every corpus,
vocabulary, contraction map and sentinel the two copies of
`convert_to_indices` (with their `remove_special_characters` helpers)
return identical output. -/
theorem C10_training_equals_serving :
    (∀ corpus dictionary c_map unk_word_index,
      Training.convert_to_indices corpus dictionary c_map unk_word_index =
        convert_to_indices corpus dictionary c_map unk_word_index) ∧
    ∀ token, Training.remove_special_characters token = remove_special_characters token :=
  ⟨fun _ _ _ _ => rfl, fun _ => rfl⟩

/-- C1 (counterexample). The claim as stated fails: with a vocabulary and a
constant scoring engine under which the singleton batch `["claim a"]` is
classified with label 0, the three-element batch
`["claim a", "claim b", "claim c"]` does not yield that label (or any
label): `run` pads all three claims to three 125-wide rows, the reshape to
`(1, 125)` raises, and the caught exception text is returned instead. -/
theorem C1_counterexample :
    run (.ok ["claim a"]) ["a", "claim"] [] (fun _ => .ok [3, 1]) = .label 0 ∧
    run (.ok ["claim a", "claim b", "claim c"]) ["a", "claim"] [] (fun _ => .ok [3, 1]) =
      .error "cannot reshape array into shape (1,125)" ∧
    run (.ok ["claim a", "claim b", "claim c"]) ["a", "claim"] [] (fun _ => .ok [3, 1]) ≠
      run (.ok ["claim a"]) ["a", "claim"] [] (fun _ => .ok [3, 1]) := by
  decide

/-- C1 (amended). For every request whose payload parses as a batch of two or
more claim texts, `run` does not score the first element (nor any element):
every claim is encoded and padded, the reshape of the resulting multi-row
array to the fixed shape `(1, 125)` fails, and the call returns the caught
error text rather than an integer label. -/
theorem C1_batch_not_first_scored (dictonary : List String)
    (c_map : List (String × String)) (onnx_session : List Nat → Except String (List ℚ))
    (t : String) (rest : List String) (h : rest ≠ []) :
    run (.ok (t :: rest)) dictonary c_map onnx_session =
      .error "cannot reshape array into shape (1,125)" := by
  apply run_reshape_error
  simp only [List.length_cons]
  intro hlen
  apply h
  exact List.length_eq_zero.1 (by omega)

/-- C1 witness: the batch of three from the spec's scenario returns the
reshape error. -/
theorem C1_witness :
    run (.ok ["claim a", "claim b", "claim c"]) ["a", "claim"] [] (fun _ => .ok [3, 1]) =
      .error "cannot reshape array into shape (1,125)" :=
  C1_batch_not_first_scored ["a", "claim"] [] (fun _ => .ok [3, 1])
    "claim a" ["claim b", "claim c"] (by decide)

/-- C5. `run` never lets an exception escape to the caller: every call
returns either an integer label or a textual error value; in particular a
payload parse failure comes back as its error text, and an inference-engine
failure on a well-formed singleton batch comes back as the engine's error
text. -/
theorem C5_score_never_raises :
    (∀ (raw_data : Except String (List String)) (dictonary : List String)
        (contractions : List (String × String))
        (onnx_session : List Nat → Except String (List ℚ)),
      (∃ n, run raw_data dictonary contractions onnx_session = .label n) ∨
      (∃ s, run raw_data dictonary contractions onnx_session = .error s)) ∧
    (∀ (dictonary : List String) (contractions : List (String × String))
        (onnx_session : List Nat → Except String (List ℚ)) (msg : String),
      run (.error msg) dictonary contractions onnx_session = .error msg) ∧
    ∀ (dictonary : List String) (contractions : List (String × String))
        (t msg : String),
      run (.ok [t]) dictonary contractions (fun _ => .error msg) = .error msg := by
  refine ⟨fun r d c e => runResult_cases _, fun d c e msg => rfl, fun d c t msg => ?_⟩
  rw [run_singleton]

/-- C8. Argmax breaks ties toward the lowest class index: whenever the
engine returns two exactly equal class scores, the returned label is 0. -/
theorem C8_argmax_tie_breaks_low :
    (∀ a : ℚ, argmaxItem [a, a] = .ok 0) ∧
    ∀ (dictonary : List String) (contractions : List (String × String))
        (t : String) (a : ℚ),
      run (.ok [t]) dictonary contractions (fun _ => .ok [a, a]) = .label 0 := by
  have h1 : ∀ a : ℚ, argmaxItem [a, a] = .ok 0 := by
    intro a
    simp [argmaxItem, argmaxGo, lt_irrefl]
  refine ⟨h1, fun d c t a => ?_⟩
  rw [run_singleton]
  simp [h1]

/-- C9. Any well-formed batch whose size is not exactly one (empty, or two or
more claims) makes `run` return the reshape error text instead of a label:
all claims are encoded into full-width 125-entry rows, and the reshape of
those rows to `(1, 125)` fails. -/
theorem C9_nonsingleton_batch_errors (dictonary : List String)
    (c_map : List (String × String)) (onnx_session : List Nat → Except String (List ℚ))
    (texts : List String) (h : texts.length ≠ 1) :
    run (.ok texts) dictonary c_map onnx_session =
      .error "cannot reshape array into shape (1,125)" ∧
    ∀ row ∈ pad_sequences (convert_to_indices texts dictonary c_map 399999) 125,
      row.length = 125 := by
  refine ⟨run_reshape_error dictonary c_map onnx_session texts h, ?_⟩
  intro row hrow
  simp only [pad_sequences, List.mem_map] at hrow
  obtain ⟨s, -, rfl⟩ := hrow
  exact padRow_length 125 s

/-- C9 witness: a two-element batch returns the reshape error. -/
theorem C9_witness :
    run (.ok ["a", "b"]) [] [] (fun _ => .ok []) =
      .error "cannot reshape array into shape (1,125)" :=
  (C9_nonsingleton_batch_errors [] [] (fun _ => .ok []) ["a", "b"] (by decide)).1

